import Mathlib

/-!
# Verification of the k8s-jobs job lifecycle manager

Shallow embedding of the core of the `k8s_jobs` Python package
(`k8s_jobs/manager.py`, `k8s_jobs/spec.py`, `k8s_jobs/config.py`):
job documents, the job signer, the spec-source/template pipeline, the
job generator, the definitions registers, pagination, log collection
and the mark-then-sweep deleter.

Python strings are embedded as Lean `String` (log text as `List Char`),
Python `dict`s as insertion-ordered association lists (`dictGet` /
`dictSet` mirror `d[k]` / `d[k] = v`, which update in place, keeping the
key's position, exactly as Python 3.7+ dicts do), Python `None` as
`Option.none`, and a Python function that may raise as a Lean function
into `Except`.
-/

namespace K8sJobs

/-- `d.get(k)` / `k in d` on a Python dict embedded as an ordered assoc list. -/
def dictGet {β : Type} : List (String × β) → String → Option β
  | [], _ => none
  | (k', v') :: rest, k => if k' = k then some v' else dictGet rest k

/-- `d[k] = v` on a Python dict: update in place if the key exists (keeping
its position, as Python dicts do), otherwise append at the end. -/
def dictSet {β : Type} : List (String × β) → String → β → List (String × β)
  | [], k, v => [(k, v)]
  | (k', v') :: rest, k, v =>
    if k' = k then (k, v) :: rest else (k', v') :: dictSet rest k v

/-! ## Job documents (`kubernetes.client` models, as used by this package) -/

/-- One entry of `status.conditions` (`V1JobCondition`): only the fields the
package reads. -/
structure V1JobCondition where
  type : String
  status : String
deriving DecidableEq, Repr

/-- `V1JobStatus`: `conditions` is `None` or a list (Python distinguishes the
two, and `if not conditions` treats both `None` and `[]` as falsy). -/
structure V1JobStatus where
  conditions : Option (List V1JobCondition)
  completion_time : Option Nat
deriving DecidableEq, Repr

/-- `V1ObjectMeta`: the fields the package reads or writes. `name` is kept as
a list of characters (Python slicing `name[:n]` is by characters). -/
structure V1ObjectMeta where
  name : List Char
  labels : Option (List (String × String))
  annotations : Option (List (String × String))
deriving DecidableEq, Repr

/-- `V1Job`: metadata plus the fields `generate` must leave untouched. The
job's pod template spec is opaque to this package, embedded as a `String`. -/
structure V1Job where
  metadata : V1ObjectMeta
  spec : String
  status : V1JobStatus
deriving DecidableEq, Repr

/-! ## `JobManager.job_is_finished` (`k8s_jobs/manager.py`)

```python
if not job.status.conditions:
    return

for condition in job.status.conditions:
    if condition.status != "True":
        continue
    if condition.type not in ["Complete", "Failed"]:
        continue
    # 'True' status and 'Complete' or 'Failed' type
    return True
return False
```

The bare `return` yields Python `None`, not `False`, so the result type is
`Option Bool` (`none` embeds Python `None`). -/

/-- The `for condition in job.status.conditions` loop of `job_is_finished`. -/
def jobIsFinishedLoop : List V1JobCondition → Bool
  | [] => false
  | condition :: rest =>
    if condition.status ≠ "True" then jobIsFinishedLoop rest
    else if condition.type ∉ ["Complete", "Failed"] then jobIsFinishedLoop rest
    else true

/-- `JobManager.job_is_finished` on an already-fetched job. -/
def jobIsFinished (job : V1Job) : Option Bool :=
  match job.status.conditions with
  | none => none
  | some [] => none
  | some conditions => some (jobIsFinishedLoop conditions)

/-- Helper to build a job with a given status and empty metadata. -/
def jobWithStatus (status : V1JobStatus) : V1Job :=
  { metadata := { name := [], labels := none, annotations := none },
    spec := "", status := status }

/-- The condition test of the `job_is_finished` loop, as a single predicate. -/
def isTerminalCondition (c : V1JobCondition) : Bool :=
  c.status = "True" && (c.type = "Complete" || c.type = "Failed")

theorem jobIsFinishedLoop_eq_any (l : List V1JobCondition) :
    jobIsFinishedLoop l = l.any isTerminalCondition := by
  induction l with
  | nil => rfl
  | cons c rest ih =>
    simp only [jobIsFinishedLoop, List.any_cons, isTerminalCondition]
    by_cases h1 : c.status = "True" <;> by_cases h2 : c.type = "Complete" <;>
      by_cases h3 : c.type = "Failed" <;> simp [h1, h2, h3, ih]

/-! ## `JobGenerator` (`k8s_jobs/spec.py`)

```python
SUFFIX_BYTES = 12
MAX_LEN = 63 - 1 - 2 * SUFFIX_BYTES
...
config.metadata.name = f"{config.metadata.name[:self.MAX_LEN]}-{secrets.token_hex(self.SUFFIX_BYTES)}"
```
-/

def SUFFIX_BYTES : Nat := 12

def MAX_LEN : Nat := 63 - 1 - 2 * SUFFIX_BYTES

/-- Lowercase hexadecimal digit for a nibble. -/
def hexDigit (n : Nat) : Char :=
  if n < 10 then Char.ofNat (48 + n) else Char.ofNat (97 + (n - 10))

/-- `secrets.token_hex` on the drawn random bytes: each byte (< 256) becomes
its two lowercase hex digits, high nibble first. -/
def token_hex : List Nat → List Char
  | [] => []
  | b :: rest => hexDigit (b / 16 % 16) :: hexDigit (b % 16) :: token_hex rest

/-- The name rewrite of `JobGenerator.generate`:
`f"{name[:MAX_LEN]}-{secrets.token_hex(SUFFIX_BYTES)}"`. -/
def generateName (name : List Char) (suffixBytes : List Nat) : List Char :=
  name.take MAX_LEN ++ '-' :: token_hex suffixBytes

/-- `JobGenerator.generate` applied to the document `config` returned by the
spec source; the random bytes drawn by `secrets.token_hex` are made an
explicit argument. Only `metadata.name` is rewritten. -/
def JobGenerator.generate (suffixBytes : List Nat) (config : V1Job) : V1Job :=
  { config with metadata := { config.metadata with
      name := generateName config.metadata.name suffixBytes } }

theorem token_hex_length (bytes : List Nat) :
    (token_hex bytes).length = 2 * bytes.length := by
  induction bytes with
  | nil => rfl
  | cons b rest ih =>
    simp only [token_hex, List.length_cons, ih]
    omega

/-- A sample job document used to instantiate the universal theorems. -/
def sampleJob : V1Job :=
  { metadata := { name := "iloveyouabushelandapeck".data,
                  labels := none, annotations := none },
    spec := "podspec", status := { conditions := none, completion_time := none } }

/-- Twelve sample random bytes, standing in for `secrets.token_hex(12)`. -/
def sampleBytes : List Nat := [0, 17, 34, 51, 68, 85, 102, 119, 136, 153, 170, 187]

/-- C3: for every declared name and every draw of `SUFFIX_BYTES` random
bytes, `generate` rewrites `metadata.name` to the name truncated to
`63 - 1 - 2*SUFFIX_BYTES` characters, followed by `"-"` and a
`2*SUFFIX_BYTES`-character hex suffix, and the result never exceeds 63
characters. -/
theorem generate_name_truncates_and_bounds (config : V1Job) (bytes : List Nat)
    (h : bytes.length = SUFFIX_BYTES) :
    (JobGenerator.generate bytes config).metadata.name
      = config.metadata.name.take MAX_LEN ++ '-' :: token_hex bytes
    ∧ (token_hex bytes).length = 2 * SUFFIX_BYTES
    ∧ (JobGenerator.generate bytes config).metadata.name.length ≤ 63 := by
  refine ⟨rfl, by rw [token_hex_length, h], ?_⟩
  have hhex : (token_hex bytes).length = 24 := by
    rw [token_hex_length, h]; rfl
  have htake : (config.metadata.name.take MAX_LEN).length ≤ MAX_LEN :=
    List.length_take_le MAX_LEN config.metadata.name
  simp only [JobGenerator.generate, generateName, List.length_append,
    List.length_cons, hhex]
  have : MAX_LEN = 38 := rfl
  omega

/-- Witness for C3 at a concrete job and byte draw. -/
theorem generate_name_truncates_and_bounds_witness :
    sampleBytes.length = SUFFIX_BYTES
    ∧ ((JobGenerator.generate sampleBytes sampleJob).metadata.name
        = sampleJob.metadata.name.take MAX_LEN ++ '-' :: token_hex sampleBytes
      ∧ (token_hex sampleBytes).length = 2 * SUFFIX_BYTES
      ∧ (JobGenerator.generate sampleBytes sampleJob).metadata.name.length ≤ 63) :=
  ⟨by decide, generate_name_truncates_and_bounds sampleJob sampleBytes (by decide)⟩

/-- C10: `generate` changes only `metadata.name`: spec, status, labels and
annotations are those of the source document; the new name starts with the
original name truncated to `MAX_LEN` followed by `"-"`, and the original
name is a prefix of the new one whenever it has at most `MAX_LEN`
characters. -/
theorem generate_frame_and_prefix (config : V1Job) (bytes : List Nat) :
    (JobGenerator.generate bytes config).spec = config.spec
    ∧ (JobGenerator.generate bytes config).status = config.status
    ∧ (JobGenerator.generate bytes config).metadata.labels = config.metadata.labels
    ∧ (JobGenerator.generate bytes config).metadata.annotations
        = config.metadata.annotations
    ∧ (config.metadata.name.take MAX_LEN ++ ['-'])
        <+: (JobGenerator.generate bytes config).metadata.name
    ∧ (config.metadata.name.length ≤ MAX_LEN →
        config.metadata.name <+: (JobGenerator.generate bytes config).metadata.name) := by
  refine ⟨rfl, rfl, rfl, rfl, ?_, ?_⟩
  · show (config.metadata.name.take MAX_LEN ++ ['-'])
      <+: generateName config.metadata.name bytes
    have : generateName config.metadata.name bytes
        = (config.metadata.name.take MAX_LEN ++ ['-']) ++ token_hex bytes := by
      simp [generateName]
    rw [this]
    exact List.prefix_append _ _
  · intro hle
    show config.metadata.name <+: generateName config.metadata.name bytes
    unfold generateName
    rw [List.take_of_length_le hle]
    exact List.prefix_append _ _

/-- Witness for C10 at a concrete job and byte draw. -/
theorem generate_frame_and_prefix_witness :
    (JobGenerator.generate sampleBytes sampleJob).spec = sampleJob.spec
    ∧ (JobGenerator.generate sampleBytes sampleJob).status = sampleJob.status
    ∧ (JobGenerator.generate sampleBytes sampleJob).metadata.labels
        = sampleJob.metadata.labels
    ∧ (JobGenerator.generate sampleBytes sampleJob).metadata.annotations
        = sampleJob.metadata.annotations
    ∧ (sampleJob.metadata.name.take MAX_LEN ++ ['-'])
        <+: (JobGenerator.generate sampleBytes sampleJob).metadata.name
    ∧ (sampleJob.metadata.name.length ≤ MAX_LEN →
        sampleJob.metadata.name
          <+: (JobGenerator.generate sampleBytes sampleJob).metadata.name) :=
  generate_frame_and_prefix sampleJob sampleBytes

/-- C2: the code diverges from the claim at empty or absent
`status.conditions`: the bare Python `return` yields `None`, not the boolean
`False` the claim states (`-> bool` annotation notwithstanding). On a
non-empty conditions list the claimed characterization does hold: the result
is the boolean that is true iff some condition has status `"True"` and type
`"Complete"` or `"Failed"`. -/
theorem job_is_finished_returns_none_not_false :
    jobIsFinished (jobWithStatus { conditions := some [], completion_time := none })
      = none
    ∧ jobIsFinished (jobWithStatus { conditions := none, completion_time := none })
      = none
    ∧ jobIsFinished
        (jobWithStatus { conditions := some [], completion_time := some 1234 })
      = none
    ∧ (none : Option Bool) ≠ some false
    ∧ ∀ (c : V1JobCondition) (cs : List V1JobCondition) (ct : Option Nat),
        jobIsFinished (jobWithStatus { conditions := some (c :: cs),
                                       completion_time := ct })
          = some ((c :: cs).any isTerminalCondition) := by
  refine ⟨rfl, rfl, rfl, by decide, ?_⟩
  intro c cs ct
  simp [jobIsFinished, jobWithStatus, jobIsFinishedLoop_eq_any]

/-! ## Dict lemmas shared by the signer and the deleter -/

theorem dictGet_dictSet_self {β : Type} (l : List (String × β)) (k : String) (v : β) :
    dictGet (dictSet l k v) k = some v := by
  induction l with
  | nil => simp [dictGet, dictSet]
  | cons p rest ih =>
    obtain ⟨k', v'⟩ := p
    by_cases h : k' = k <;> simp [dictGet, dictSet, h, ih]

theorem dictGet_dictSet_ne {β : Type} (l : List (String × β)) {k' k : String} (v : β)
    (h : k' ≠ k) : dictGet (dictSet l k' v) k = dictGet l k := by
  induction l with
  | nil => simp [dictGet, dictSet, h]
  | cons p rest ih =>
    obtain ⟨k0, v0⟩ := p
    by_cases h0 : k0 = k'
    · subst h0
      simp [dictSet, dictGet, h]
    · by_cases h1 : k0 = k
      · subst h1
        simp [dictSet, dictGet, h0]
      · simp [dictSet, dictGet, h0, h1, ih]

theorem dictSet_eq_of_dictGet {β : Type} {l : List (String × β)} {k : String} {v : β}
    (h : dictGet l k = some v) : dictSet l k v = l := by
  induction l with
  | nil => simp [dictGet] at h
  | cons p rest ih =>
    obtain ⟨k0, v0⟩ := p
    by_cases h0 : k0 = k
    · subst h0
      simp [dictGet] at h
      simp [dictSet, h]
    · simp [dictGet, h0] at h
      simp [dictSet, h0, ih h]

theorem dictSet_ne_nil {β : Type} (l : List (String × β)) (k : String) (v : β) :
    dictSet l k v ≠ [] := by
  cases l with
  | nil => simp [dictSet]
  | cons p rest =>
    obtain ⟨k0, v0⟩ := p
    by_cases h : k0 = k <;> simp [dictSet, h]

/-! ## `JobSigner.sign` (`k8s_jobs/manager.py`)

```python
LABEL_KEY = "app.kubernetes.io/managed-by"
JOB_DEFINITION_NAME_KEY = "job_definition_name"

if not job.metadata.labels:
    job.metadata.labels = {}
labels = job.metadata.labels
labels[self.LABEL_KEY] = self.signature
if job_definition_name:
    labels[self.JOB_DEFINITION_NAME_KEY] = job_definition_name
```
-/

def LABEL_KEY : String := "app.kubernetes.io/managed-by"

def JOB_DEFINITION_NAME_KEY : String := "job_definition_name"

/-- `JobSigner.sign` on the dict/`V1Job` job document (both Python branches
locate the same labels mapping). `job_definition_name = None` and `= ""` are
both falsy in `if job_definition_name:`. -/
def JobSigner.sign (signature : String) (job_definition_name : Option String)
    (job : V1Job) : V1Job :=
  let labels0 := match job.metadata.labels with
    | none => []
    | some l => l
  let labels1 := dictSet labels0 LABEL_KEY signature
  let labels2 := match job_definition_name with
    | none => labels1
    | some n => if n = "" then labels1 else dictSet labels1 JOB_DEFINITION_NAME_KEY n
  { job with metadata := { job.metadata with labels := some labels2 } }

/-- C9: `sign` is idempotent (signing twice with the same signature and
definition name leaves the job, labels included, identical to signing once);
it always sets the ownership label, sets the job-definition-name label
exactly when a (truthy) name is provided, and always leaves a labels mapping
present. -/
theorem sign_idempotent_and_sets_labels (signature : String)
    (jdn : Option String) (job : V1Job) :
    JobSigner.sign signature jdn (JobSigner.sign signature jdn job)
      = JobSigner.sign signature jdn job
    ∧ dictGet ((JobSigner.sign signature jdn job).metadata.labels.getD []) LABEL_KEY
        = some signature
    ∧ (∀ n, jdn = some n → n ≠ "" →
        dictGet ((JobSigner.sign signature jdn job).metadata.labels.getD [])
          JOB_DEFINITION_NAME_KEY = some n)
    ∧ (jdn = none →
        dictGet ((JobSigner.sign signature jdn job).metadata.labels.getD [])
            JOB_DEFINITION_NAME_KEY
          = dictGet (job.metadata.labels.getD []) JOB_DEFINITION_NAME_KEY)
    ∧ (JobSigner.sign signature jdn job).metadata.labels.isSome = true := by
  have hkeys : JOB_DEFINITION_NAME_KEY ≠ LABEL_KEY := by decide
  have hkeys' : LABEL_KEY ≠ JOB_DEFINITION_NAME_KEY := by decide
  obtain ⟨⟨name, labels, annots⟩, spc, st⟩ := job
  match jdn with
  | none =>
    refine ⟨?_, ?_, ?_, ?_, ?_⟩
    · simp [JobSigner.sign,
        dictSet_eq_of_dictGet (dictGet_dictSet_self _ LABEL_KEY signature)]
    · simp [JobSigner.sign, dictGet_dictSet_self]
    · intro n hn; cases hn
    · intro _
      cases labels <;>
        simp [JobSigner.sign, dictGet_dictSet_ne, hkeys', dictGet]
    · simp [JobSigner.sign]
  | some n =>
    by_cases hn : n = ""
    · refine ⟨?_, ?_, ?_, ?_, ?_⟩
      · simp [JobSigner.sign, hn,
          dictSet_eq_of_dictGet (dictGet_dictSet_self _ LABEL_KEY signature)]
      · simp [JobSigner.sign, hn, dictGet_dictSet_self]
      · intro n' hn' hne
        cases hn'
        exact absurd hn hne
      · intro h; cases h
      · simp [JobSigner.sign]
    · have hsig : dictGet
          (dictSet (dictSet (match (some (dictSet
            (match (labels : Option (List (String × String))) with
              | none => [] | some l => l) LABEL_KEY signature) : Option (List (String × String))) with
            | none => [] | some l => l) LABEL_KEY signature) JOB_DEFINITION_NAME_KEY n)
          LABEL_KEY = some signature := by
        rw [dictGet_dictSet_ne _ _ hkeys, dictGet_dictSet_self]
      refine ⟨?_, ?_, ?_, ?_, ?_⟩
      · simp only [JobSigner.sign, hn, if_neg hn]
        have h1 : ∀ l0 : List (String × String),
            dictSet (dictSet (dictSet l0 LABEL_KEY signature)
              JOB_DEFINITION_NAME_KEY n) LABEL_KEY signature
            = dictSet (dictSet l0 LABEL_KEY signature) JOB_DEFINITION_NAME_KEY n := by
          intro l0
          exact dictSet_eq_of_dictGet
            (by rw [dictGet_dictSet_ne _ _ hkeys, dictGet_dictSet_self])
        have h2 : ∀ l0 : List (String × String),
            dictSet (dictSet (dictSet l0 LABEL_KEY signature)
              JOB_DEFINITION_NAME_KEY n) JOB_DEFINITION_NAME_KEY n
            = dictSet (dictSet l0 LABEL_KEY signature) JOB_DEFINITION_NAME_KEY n := by
          intro l0
          exact dictSet_eq_of_dictGet (dictGet_dictSet_self _ _ _)
        simp [h1, h2]
      · simp [JobSigner.sign, hn, dictGet_dictSet_ne _ _ hkeys, dictGet_dictSet_self]
      · intro n' hn' hne
        cases hn'
        simp [JobSigner.sign, hn, dictGet_dictSet_self]
      · intro h; cases h
      · simp [JobSigner.sign]

/-- Witness for C9 at a concrete signature, definition name and job. -/
theorem sign_idempotent_and_sets_labels_witness :
    JobSigner.sign "sig" (some "def1") (JobSigner.sign "sig" (some "def1") sampleJob)
      = JobSigner.sign "sig" (some "def1") sampleJob
    ∧ dictGet ((JobSigner.sign "sig" (some "def1") sampleJob).metadata.labels.getD [])
        LABEL_KEY = some "sig"
    ∧ (∀ n, (some "def1" : Option String) = some n → n ≠ "" →
        dictGet ((JobSigner.sign "sig" (some "def1") sampleJob).metadata.labels.getD [])
          JOB_DEFINITION_NAME_KEY = some n)
    ∧ ((some "def1" : Option String) = none →
        dictGet ((JobSigner.sign "sig" (some "def1") sampleJob).metadata.labels.getD [])
            JOB_DEFINITION_NAME_KEY
          = dictGet (sampleJob.metadata.labels.getD []) JOB_DEFINITION_NAME_KEY)
    ∧ (JobSigner.sign "sig" (some "def1") sampleJob).metadata.labels.isSome = true :=
  sign_idempotent_and_sets_labels "sig" (some "def1") sampleJob

/-! ## `JobDeleter` (`k8s_jobs/manager.py`)

```python
JOB_DELETION_TIME_ANNOTATION = "job_deletion_time_unix_sec"

def mark_deletion_time(self, job, retention_period_sec):
    if (job.metadata.annotations
            and self.JOB_DELETION_TIME_ANNOTATION in job.metadata.annotations):
        return
    job.metadata.annotations = job.metadata.annotations or {}
    job.metadata.annotations[self.JOB_DELETION_TIME_ANNOTATION] = str(
        int(time.time() + retention_period_sec))
    _ = batch_v1_client.patch_namespaced_job(...)

def is_candidate_for_deletion(self, job):
    annotations = job.metadata.annotations or {}
    deletion_time = annotations.get(self.JOB_DELETION_TIME_ANNOTATION, None)
    return deletion_time is not None and int(deletion_time) <= time.time()
```
-/

def JOB_DELETION_TIME_ANNOTATION : String := "job_deletion_time_unix_sec"

/-- The guard of `mark_deletion_time`: `job.metadata.annotations and KEY in
job.metadata.annotations` (a `None` or empty annotations dict is falsy). -/
def alreadyMarked (job : V1Job) : Bool :=
  match job.metadata.annotations with
  | none => false
  | some a => !a.isEmpty && (dictGet a JOB_DELETION_TIME_ANNOTATION).isSome

/-- `JobDeleter.mark_deletion_time`, with `int(time.time())` passed as `now`.
Returns the job in its final (possibly patched) state, paired with whether a
patch request was issued. -/
def markDeletionTime (now retention_period_sec : Nat) (job : V1Job) :
    V1Job × Bool :=
  if alreadyMarked job then (job, false)
  else
    let anns := job.metadata.annotations.getD []
    let anns' := dictSet anns JOB_DELETION_TIME_ANNOTATION
      (toString (now + retention_period_sec))
    ({ job with metadata := { job.metadata with annotations := some anns' } },
     true)

/-- Python `int()` on a decimal digit string (deadline annotations are
written by `str(int(...))`, so they are decimal). -/
def parseDecimal (s : String) : Nat :=
  s.data.foldl (fun acc c => acc * 10 + (c.toNat - 48)) 0

/-- `JobDeleter.is_candidate_for_deletion`, with `time.time()` as `now`. -/
def isCandidateForDeletion (now : Nat) (job : V1Job) : Bool :=
  let annotations := job.metadata.annotations.getD []
  match dictGet annotations JOB_DELETION_TIME_ANNOTATION with
  | none => false
  | some deletion_time => parseDecimal deletion_time ≤ now

/-- C6: `mark_deletion_time` has first-mark-wins semantics: on an
already-annotated job it issues no patch and leaves the job (hence the
annotation value) unchanged; on an unannotated job it sets the annotation to
`now + retention_period_sec` and patches; and marking the result again, with
any later clock value and any retention period, never patches nor changes
the deadline. -/
theorem mark_deletion_time_first_mark_wins (now r : Nat) (job : V1Job) :
    (alreadyMarked job = true → markDeletionTime now r job = (job, false))
    ∧ (alreadyMarked job = false →
        dictGet ((markDeletionTime now r job).1.metadata.annotations.getD [])
            JOB_DELETION_TIME_ANNOTATION = some (toString (now + r))
        ∧ (markDeletionTime now r job).2 = true)
    ∧ ∀ now2 r2, markDeletionTime now2 r2 (markDeletionTime now r job).1
        = ((markDeletionTime now r job).1, false) := by
  refine ⟨?_, ?_, ?_⟩
  · intro h
    simp [markDeletionTime, h]
  · intro h
    simp [markDeletionTime, h, dictGet_dictSet_self]
  · intro now2 r2
    by_cases h : alreadyMarked job
    · simp [markDeletionTime, h]
    · simp only [markDeletionTime, h, Bool.false_eq_true, if_false]
      have hne := dictSet_ne_nil (job.metadata.annotations.getD [])
        JOB_DELETION_TIME_ANNOTATION (toString (now + r))
      have hmarked : alreadyMarked
          { job with metadata := { job.metadata with
              annotations := some (dictSet (job.metadata.annotations.getD [])
                JOB_DELETION_TIME_ANNOTATION (toString (now + r))) } } = true := by
        simp only [alreadyMarked, dictGet_dictSet_self, Option.isSome_some,
          Bool.and_true]
        cases hd : dictSet (job.metadata.annotations.getD [])
            JOB_DELETION_TIME_ANNOTATION (toString (now + r)) with
        | nil => exact absurd hd hne
        | cons p rest => simp
      simp [markDeletionTime, hmarked]

/-- Witness for C6 at a concrete clock, retention period and job. -/
theorem mark_deletion_time_first_mark_wins_witness :
    (alreadyMarked sampleJob = true →
        markDeletionTime 1000 3600 sampleJob = (sampleJob, false))
    ∧ (alreadyMarked sampleJob = false →
        dictGet ((markDeletionTime 1000 3600 sampleJob).1.metadata.annotations.getD [])
            JOB_DELETION_TIME_ANNOTATION = some (toString (1000 + 3600))
        ∧ (markDeletionTime 1000 3600 sampleJob).2 = true)
    ∧ ∀ now2 r2, markDeletionTime now2 r2 (markDeletionTime 1000 3600 sampleJob).1
        = ((markDeletionTime 1000 3600 sampleJob).1, false) :=
  mark_deletion_time_first_mark_wins 1000 3600 sampleJob

/-! ### `JobDeleter.cleanup_jobs`

```python
delete_callback = delete_callback or (lambda x: None)
for job in self.manager.fetch_jobs():
    if not self.is_candidate_for_deletion(job):
        continue
    try:
        try:
            delete_callback(job)
        except Exception:
            logger.warning(f"Error in delete callback", exc_info=True)
            continue
        self.manager.delete_job(job)
    except client.rest.ApiException:
        logger.warning(f"Error checking job {job.metadata.name}", exc_info=True)
```
-/

/-- Observable events of one `cleanup_jobs` sweep: a `delete_callback`
invocation, and a successful physical deletion. -/
inductive CleanupEvent
  | callbackCall (job : V1Job)
  | deletion (job : V1Job)
deriving DecidableEq, Repr

/-- The loop body of `cleanup_jobs` for one fetched job, as the list of
events it emits in order. `callbackRaises job = true` embeds
`delete_callback(job)` raising (any `Exception`: caught, logged, the loop
continues with the next job, no deletion); `deleteRaises job = true` embeds
`manager.delete_job(job)` raising an `ApiException` (caught, logged, the job
is not deleted). -/
def cleanupJobStep (now : Nat) (callbackRaises deleteRaises : V1Job → Bool)
    (job : V1Job) : List CleanupEvent :=
  if !isCandidateForDeletion now job then []
  else if callbackRaises job then [.callbackCall job]
  else if deleteRaises job then [.callbackCall job]
  else [.callbackCall job, .deletion job]

/-- `JobDeleter.cleanup_jobs` over the fetched batch, as its ordered trace
of callback invocations and deletions. -/
def cleanupJobs (now : Nat) (callbackRaises deleteRaises : V1Job → Bool) :
    List V1Job → List CleanupEvent
  | [] => []
  | job :: rest =>
    cleanupJobStep now callbackRaises deleteRaises job
      ++ cleanupJobs now callbackRaises deleteRaises rest

/-- `deletionPreceded j tr = true` when the first event of `tr` touching job
`j` (if any) is a callback invocation: every deletion of `j` in `tr` comes
after an earlier callback invocation on `j`. -/
def deletionPreceded (j : V1Job) : List CleanupEvent → Bool
  | [] => true
  | .callbackCall i :: rest => if i = j then true else deletionPreceded j rest
  | .deletion i :: rest => if i = j then false else deletionPreceded j rest

theorem deletionPreceded_step_append (now : Nat) (cb del : V1Job → Bool)
    (x j : V1Job) (tr : List CleanupEvent)
    (h : deletionPreceded j tr = true) :
    deletionPreceded j (cleanupJobStep now cb del x ++ tr) = true := by
  rcases eq_or_ne x j with rfl | hx
  · by_cases hc : isCandidateForDeletion now x <;> by_cases hcb : cb x <;>
      by_cases hd : del x <;>
        simp [cleanupJobStep, deletionPreceded, hc, hcb, hd, h]
  · by_cases hc : isCandidateForDeletion now x <;> by_cases hcb : cb x <;>
      by_cases hd : del x <;>
        simp [cleanupJobStep, deletionPreceded, hc, hcb, hd, hx, h]

/-- C4: in every `cleanup_jobs` sweep the delete callback is invoked on a
candidate before that candidate's physical deletion; a job whose callback
raises is never deleted in the sweep; and any other candidate whose callback
and deletion do not raise is still deleted, independently of failures on
sibling jobs. -/
theorem cleanup_jobs_callback_isolation (now : Nat)
    (cb del : V1Job → Bool) (jobs : List V1Job) (j : V1Job) :
    deletionPreceded j (cleanupJobs now cb del jobs) = true
    ∧ (cb j = true → CleanupEvent.deletion j ∉ cleanupJobs now cb del jobs)
    ∧ (j ∈ jobs → isCandidateForDeletion now j = true → cb j = false →
        del j = false → CleanupEvent.deletion j ∈ cleanupJobs now cb del jobs) := by
  refine ⟨?_, ?_, ?_⟩
  · induction jobs with
    | nil => rfl
    | cons x rest ih =>
      simp only [cleanupJobs]
      exact deletionPreceded_step_append now cb del x j _ ih
  · intro hcb hmem
    induction jobs with
    | nil => simp [cleanupJobs] at hmem
    | cons x rest ih =>
      simp only [cleanupJobs, List.mem_append] at hmem
      rcases hmem with hmem | hmem
      · by_cases hc : isCandidateForDeletion now x
        · by_cases hcbx : cb x
          · simp [cleanupJobStep, hc, hcbx] at hmem
          · by_cases hdx : del x
            · simp [cleanupJobStep, hc, hcbx, hdx] at hmem
            · simp [cleanupJobStep, hc, hcbx, hdx] at hmem
              subst hmem
              exact hcbx hcb
        · simp [cleanupJobStep, hc] at hmem
      · exact ih hmem
  · intro hj hcand hcb hdel
    induction jobs with
    | nil => cases hj
    | cons x rest ih =>
      simp only [cleanupJobs, List.mem_append]
      rcases List.mem_cons.mp hj with rfl | hj2
      · left
        simp [cleanupJobStep, hcand, hcb, hdel]
      · right
        exact ih hj2

/-- A candidate job (deadline `50` passed by `now = 100`) whose callback
will raise in the witness sweep. -/
def wJob1 : V1Job :=
  { metadata := { name := ['a'], labels := none,
                  annotations := some [(JOB_DELETION_TIME_ANNOTATION, "50")] },
    spec := "", status := { conditions := none, completion_time := none } }

/-- A second, independent candidate job whose callback succeeds. -/
def wJob2 : V1Job :=
  { metadata := { name := ['b'], labels := none,
                  annotations := some [(JOB_DELETION_TIME_ANNOTATION, "50")] },
    spec := "", status := { conditions := none, completion_time := none } }

/-- Witness callback behaviour: the callback raises exactly on `wJob1`. -/
def wCb (job : V1Job) : Bool := job.metadata.name == ['a']

/-- Witness deletion behaviour: physical deletion never raises. -/
def wDel (_job : V1Job) : Bool := false

/-- Witness for C4: in a batch of two candidates where the callback raises
on the first, the first is not deleted but the second still is, and every
deletion in the trace was preceded by its callback invocation. -/
theorem cleanup_jobs_callback_isolation_witness :
    deletionPreceded wJob1 (cleanupJobs 100 wCb wDel [wJob1, wJob2]) = true
    ∧ wCb wJob1 = true
    ∧ CleanupEvent.deletion wJob1 ∉ cleanupJobs 100 wCb wDel [wJob1, wJob2]
    ∧ wJob2 ∈ [wJob1, wJob2]
    ∧ isCandidateForDeletion 100 wJob2 = true
    ∧ wCb wJob2 = false
    ∧ wDel wJob2 = false
    ∧ CleanupEvent.deletion wJob2 ∈ cleanupJobs 100 wCb wDel [wJob1, wJob2] :=
  ⟨(cleanup_jobs_callback_isolation 100 wCb wDel [wJob1, wJob2] wJob1).1,
   by decide,
   (cleanup_jobs_callback_isolation 100 wCb wDel [wJob1, wJob2] wJob1).2.1
     (by decide),
   by decide, by decide, by decide, by decide,
   (cleanup_jobs_callback_isolation 100 wCb wDel [wJob1, wJob2] wJob2).2.2
     (by decide) (by decide) (by decide) (by decide)⟩

/-! ## `JobManager.fetch_jobs` (`k8s_jobs/manager.py`)

```python
response = batch_v1_client.list_namespaced_job(
    namespace=self.namespace, label_selector=...)
yield from response.items
while response.metadata._continue:
    response = batch_v1_client.list_namespaced_job(
        namespace=self.namespace, _continue=response.metadata._continue)
    yield from response.items
```
-/

/-- `V1ListMeta`: the continuation token of a list response. Python tests it
for truthiness, so `None` and `""` (a cleared token) both embed to `none`. -/
structure V1ListMeta where
  continueToken : Option String
deriving DecidableEq, Repr

/-- A `list_namespaced_job` response. -/
structure V1JobList where
  items : List V1Job
  metadata : V1ListMeta
deriving DecidableEq, Repr

/-- The `while response.metadata._continue:` loop of `fetch_jobs`. The
backend is a function from the request's continuation token (`none` for the
initial selector-filtered request) to its response; `fuel` bounds the number
of follow-up requests the embedding may issue. -/
def fetchJobsLoop (backend : Option String → V1JobList) :
    Nat → V1JobList → List V1Job
  | 0, response => response.items
  | fuel + 1, response =>
    match response.metadata.continueToken with
    | none => response.items
    | some tok => response.items ++ fetchJobsLoop backend fuel (backend (some tok))

/-- `JobManager.fetch_jobs`, fully consumed into a list (`list_jobs`). -/
def fetchJobs (backend : Option String → V1JobList) (fuel : Nat) : List V1Job :=
  fetchJobsLoop backend fuel (backend none)

/-- C8: when the backend answers the initial request with page one and a
continuation token, and the request carrying that token with page two and a
cleared token, `fetch_jobs` yields the items of page one followed by the
items of page two — every item of both pages exactly once (counted with
multiplicity), in page order. -/
theorem fetch_jobs_two_pages (backend : Option String → V1JobList)
    (items1 items2 : List V1Job) (tok : String)
    (h1 : backend none = ⟨items1, ⟨some tok⟩⟩)
    (h2 : backend (some tok) = ⟨items2, ⟨none⟩⟩) :
    fetchJobs backend 1 = items1 ++ items2
    ∧ ∀ j : V1Job, (fetchJobs backend 1).count j
        = items1.count j + items2.count j := by
  have h : fetchJobs backend 1 = items1 ++ items2 := by
    simp [fetchJobs, fetchJobsLoop, h1, h2]
  exact ⟨h, fun j => by rw [h, List.count_append]⟩

/-- A two-page backend for the C8 witness. -/
def wBackend : Option String → V1JobList
  | none => ⟨[wJob1], ⟨some "tok"⟩⟩
  | some _ => ⟨[wJob2], ⟨none⟩⟩

/-- Witness for C8 on a concrete two-page backend. -/
theorem fetch_jobs_two_pages_witness :
    fetchJobs wBackend 1 = [wJob1] ++ [wJob2]
    ∧ ∀ j : V1Job, (fetchJobs wBackend 1).count j
        = [wJob1].count j + [wJob2].count j :=
  fetch_jobs_two_pages wBackend [wJob1] [wJob2] "tok" rfl rfl

/-! ## `JobManager.job_logs` (`k8s_jobs/manager.py`)

```python
logs = ""
for pod in response.items:
    logs += f"Pod: {pod.metadata.name}\n"
    try:
        pod_logs = core_v1_client.read_namespaced_pod_log(...)
    except client.rest.ApiException as e:
        if "ContainerCreating" in str(e):
            continue
        raise
    ...
    logs += pod_logs
    logs += "======="
return logs
```
-/

/-- The outcome of `read_namespaced_pod_log` for one pod: the log text, an
`ApiException` whose message mentions `ContainerCreating`, or any other
`ApiException`. -/
inductive LogFetchOutcome
  | ok (text : List Char)
  | containerCreating
  | apiError
deriving DecidableEq, Repr

/-- One pod of the job, with what the backend answers for its logs. -/
structure PodLogSource where
  name : String
  fetch : LogFetchOutcome
deriving DecidableEq, Repr

/-- The header line `f"Pod: {pod.metadata.name}\n"`. -/
def podHeader (name : String) : List Char := ("Pod: " ++ name ++ "\n").data

/-- The per-pod footer `"======="`. -/
def logsFooter : List Char := "=======".data

/-- The `for pod in response.items` loop of `job_logs`, accumulating into
`logs`; a re-raised `ApiException` discards the accumulator and propagates
(`Except.error`). -/
def jobLogsLoop (logs : List Char) : List PodLogSource → Except Unit (List Char)
  | [] => .ok logs
  | pod :: rest =>
    let logs1 := logs ++ podHeader pod.name
    match pod.fetch with
    | .containerCreating => jobLogsLoop logs1 rest
    | .apiError => .error ()
    | .ok text => jobLogsLoop (logs1 ++ text ++ logsFooter) rest

/-- `JobManager.job_logs` over the job's pods. -/
def jobLogs (pods : List PodLogSource) : Except Unit (List Char) :=
  jobLogsLoop [] pods

/-- What one pod contributes to the final log string when no pod aborts the
loop: a pod still creating its container contributes exactly its single
header line. -/
def podChunk (p : PodLogSource) : List Char :=
  match p.fetch with
  | .containerCreating => podHeader p.name
  | .ok text => podHeader p.name ++ text ++ logsFooter
  | .apiError => []

/-- C5 counterexample: a non-`ContainerCreating` fetch error on the first
pod makes `job_logs` raise, so nothing at all is collected — in particular
the second pod's logs are lost, contrary to the claim that one pod's fetch
error does not abort collection for the others. -/
theorem job_logs_api_error_aborts_counterexample :
    jobLogs [⟨"p1", .apiError⟩, ⟨"p2", .ok "x".data⟩] = .error () := rfl

theorem jobLogsLoop_ok (acc : List Char) (pods : List PodLogSource)
    (h : ∀ p ∈ pods, p.fetch ≠ .apiError) :
    jobLogsLoop acc pods = .ok (acc ++ pods.flatMap podChunk) := by
  induction pods generalizing acc with
  | nil => simp [jobLogsLoop]
  | cons p rest ih =>
    have hp : p.fetch ≠ .apiError := h p (by simp)
    have hrest : ∀ q ∈ rest, q.fetch ≠ .apiError := fun q hq => h q (by simp [hq])
    cases hf : p.fetch with
    | containerCreating =>
      simp [jobLogsLoop, hf, ih _ hrest, podChunk, List.append_assoc]
    | apiError => exact absurd hf hp
    | ok text =>
      simp [jobLogsLoop, hf, ih _ hrest, podChunk, List.append_assoc]

theorem jobLogsLoop_error (acc : List Char) (l1 : List PodLogSource)
    (bad : PodLogSource) (l2 : List PodLogSource)
    (h1 : ∀ p ∈ l1, p.fetch ≠ .apiError) (hb : bad.fetch = .apiError) :
    jobLogsLoop acc (l1 ++ bad :: l2) = .error () := by
  induction l1 generalizing acc with
  | nil => simp [jobLogsLoop, hb]
  | cons p rest ih =>
    have hp : p.fetch ≠ .apiError := h1 p (by simp)
    have hrest : ∀ q ∈ rest, q.fetch ≠ .apiError := fun q hq => h1 q (by simp [hq])
    cases hf : p.fetch with
    | containerCreating => simp [jobLogsLoop, hf, ih _ hrest]
    | apiError => exact absurd hf hp
    | ok text => simp [jobLogsLoop, hf, ih _ hrest]

/-- C5 amended: per-pod output where a pod whose container is still being
created contributes exactly its single header line (no logs and no footer)
instead of raising; but any other `ApiException` on a pod propagates and
aborts the whole collection (nothing is returned for any pod). -/
theorem job_logs_creating_placeholder_api_error_aborts
    (pods l1 l2 : List PodLogSource) (bad : PodLogSource) :
    ((∀ p ∈ pods, p.fetch ≠ .apiError) →
        jobLogs pods = .ok (pods.flatMap podChunk))
    ∧ (∀ p : PodLogSource, p.fetch = .containerCreating →
        podChunk p = podHeader p.name)
    ∧ ((∀ p ∈ l1, p.fetch ≠ .apiError) → bad.fetch = .apiError →
        jobLogs (l1 ++ bad :: l2) = .error ()) := by
  refine ⟨fun h => ?_, fun p hp => ?_, fun h1 hb => ?_⟩
  · simpa using jobLogsLoop_ok [] pods h
  · simp [podChunk, hp]
  · exact jobLogsLoop_error [] l1 bad l2 h1 hb

/-- Pods for the C5 witness: a healthy pod, a still-creating pod, and a
batch whose second pod raises a non-creating error. -/
def wPodsOk : List PodLogSource :=
  [⟨"p1", .ok "hello\n".data⟩, ⟨"p2", .containerCreating⟩,
   ⟨"p3", .ok "bye\n".data⟩]

def wPodsBadL1 : List PodLogSource := [⟨"q1", .ok "a".data⟩]

def wPodBad : PodLogSource := ⟨"q2", .apiError⟩

/-- Witness for C5 (amended) at concrete pod batches. -/
theorem job_logs_creating_placeholder_api_error_aborts_witness :
    jobLogs wPodsOk = .ok (wPodsOk.flatMap podChunk)
    ∧ podChunk ⟨"p2", .containerCreating⟩ = podHeader "p2"
    ∧ jobLogs (wPodsBadL1 ++ wPodBad :: [⟨"q3", .ok "c".data⟩]) = .error () :=
  ⟨(job_logs_creating_placeholder_api_error_aborts wPodsOk wPodsBadL1
      [⟨"q3", .ok "c".data⟩] wPodBad).1 (by decide),
   (job_logs_creating_placeholder_api_error_aborts wPodsOk wPodsBadL1
      [⟨"q3", .ok "c".data⟩] wPodBad).2.1 ⟨"p2", .containerCreating⟩ rfl,
   (job_logs_creating_placeholder_api_error_aborts wPodsOk wPodsBadL1
      [⟨"q3", .ok "c".data⟩] wPodBad).2.2 (by decide) rfl⟩

/-! ## Templating and `YamlStringSpecSource.get` (`k8s_jobs/spec.py`)

```python
rendered = jinja2.Template(self.spec, undefined=jinja2.StrictUndefined).render(
    template_args or {})
stream = StringIO(rendered)
return yaml.safe_load(stream)
```

The jinja2 engine is an external library, not part of this repository's
sources. Modelled from the spec: a template "may declare zero or more free
variables that must be supplied at render time, and resolution fails if any
declared variable is missing (strict rendering — no silently-empty
substitution) or if extra unused arguments are passed (always permitted)".
A template is a sequence of literal text segments and `{{ var }}`
placeholders; strict rendering substitutes each placeholder and raises
`UndefinedError` at a placeholder whose variable is not supplied. -/

/-- One segment of a jinja2 template. -/
inductive Segment
  | text (s : String)
  | var (v : String)
deriving DecidableEq, Repr

abbrev JinjaTemplate := List Segment

/-- `jinja2.meta.find_undeclared_variables`
(`YamlStringSpecSource.template_vars`): the variables the template declares
free, by static analysis, without rendering. -/
def templateVars : JinjaTemplate → List String
  | [] => []
  | .text _ :: rest => templateVars rest
  | .var v :: rest => v :: templateVars rest

/-- Strict jinja2 rendering: `.error v` embeds
`jinja2.exceptions.UndefinedError` on the unsupplied variable `v`. -/
def renderStrict (template_args : List (String × String)) :
    JinjaTemplate → Except String String
  | [] => .ok ""
  | .text s :: rest => (renderStrict template_args rest).map (fun r => s ++ r)
  | .var v :: rest =>
    match dictGet template_args v with
    | none => .error v
    | some val => (renderStrict template_args rest).map (fun r => val ++ r)

/-- The errors `YamlStringSpecSource.get` can surface: a template error
(strict rendering) or a parse error (`yaml.safe_load` on malformed text). -/
inductive SpecGetError
  | templateError (v : String)
  | parseError
deriving DecidableEq, Repr

/-- `YamlStringSpecSource.get`: render strictly, then `yaml.safe_load` the
rendered text. The yaml parser is external; it is abstracted as any
function `parse` from the rendered text to an optional document. -/
def specSourceGet {α : Type} (spec : JinjaTemplate) (parse : String → Option α)
    (template_args : List (String × String)) : Except SpecGetError α :=
  match renderStrict template_args spec with
  | .error v => .error (.templateError v)
  | .ok rendered =>
    match parse rendered with
    | none => .error .parseError
    | some doc => .ok doc

theorem renderStrict_error_iff (template_args : List (String × String))
    (spec : JinjaTemplate) :
    (∃ v, renderStrict template_args spec = .error v) ↔
      ∃ v ∈ templateVars spec, dictGet template_args v = none := by
  induction spec with
  | nil => simp [renderStrict, templateVars]
  | cons seg rest ih =>
    cases seg with
    | text s =>
      simp only [renderStrict, templateVars]
      rw [← ih]
      cases h : renderStrict template_args rest <;> simp [Except.map, h]
    | var v =>
      simp only [renderStrict, templateVars]
      cases hv : dictGet template_args v with
      | none => simp [hv]
      | some val =>
        rw [List.exists_mem_cons_iff]
        simp only [hv, reduceCtorEq, false_and, false_or]
        rw [← ih]
        cases h : renderStrict template_args rest <;> simp [Except.map, h]

theorem renderStrict_extra_arg (spec : JinjaTemplate) (k val : String)
    (template_args : List (String × String)) (hk : k ∉ templateVars spec) :
    renderStrict ((k, val) :: template_args) spec
      = renderStrict template_args spec := by
  induction spec with
  | nil => rfl
  | cons seg rest ih =>
    cases seg with
    | text s =>
      simp only [templateVars] at hk
      simp [renderStrict, ih hk]
    | var v =>
      simp only [templateVars, List.mem_cons] at hk
      push_neg at hk
      obtain ⟨hkv, hkrest⟩ := hk
      simp [renderStrict, dictGet, hkv, ih hkrest]

/-- C7: `YamlStringSpecSource.get` (for any yaml parser behaviour) fails
with a template error exactly when some variable the template declares free
is missing from the supplied arguments, and supplying an extra argument for
a variable the template does not declare never changes the outcome — in
particular it never causes a failure. -/
theorem spec_source_get_strict_binding {α : Type} (spec : JinjaTemplate)
    (parse : String → Option α) (template_args : List (String × String)) :
    ((∃ v, specSourceGet spec parse template_args = .error (.templateError v))
        ↔ ∃ v ∈ templateVars spec, dictGet template_args v = none)
    ∧ ∀ k val, k ∉ templateVars spec →
        specSourceGet spec parse ((k, val) :: template_args)
          = specSourceGet spec parse template_args := by
  constructor
  · rw [← renderStrict_error_iff template_args spec]
    unfold specSourceGet
    cases h : renderStrict template_args spec with
    | error v => simp [h]
    | ok rendered =>
      simp only [h, reduceCtorEq, exists_const, iff_false, not_exists]
      intro v
      cases hp : parse rendered <;> simp [hp]
  · intro k val hk
    unfold specSourceGet
    rw [renderStrict_extra_arg spec k val template_args hk]

/-- The manifest template `"x: {{v}}"` of the spec's scenario. -/
def wManifestTemplate : JinjaTemplate := [.text "x: ", .var "v"]

/-- Witness for C7 on the scenario template, with the identity parser. -/
theorem spec_source_get_strict_binding_witness :
    ((∃ v, specSourceGet wManifestTemplate some [("v", "1")]
        = .error (.templateError v))
      ↔ ∃ v ∈ templateVars wManifestTemplate, dictGet [("v", "1")] v = none)
    ∧ ∀ k val, k ∉ templateVars wManifestTemplate →
        specSourceGet wManifestTemplate some ((k, val) :: [("v", "1")])
          = specSourceGet wManifestTemplate some [("v", "1")] :=
  spec_source_get_strict_binding wManifestTemplate some [("v", "1")]

/-! ## Definitions registers (`k8s_jobs/manager.py`, `k8s_jobs/config.py`)

```python
class StaticJobDefinitionsRegister(JobDefinitionsRegister):
    @remaps_exception(exc_map={KeyError: NotFoundException})
    def get_generator(self, job_definition_name: str) -> JobGenerator:
        return self.job_generators[job_definition_name]

class ReloadingJobDefinitionsRegister(JobDefinitionsRegister):
    @remaps_exception({KeyError: NotFoundException})
    def get_generator(self, job_definition_name) -> JobGenerator:
        return self.generators[job_definition_name]

    def _maybe_reload(self):
        ...
        job_definitions = [JobDefinition(**d) for d in job_definitions_dicts]
        generators = {
            job_definition.name: job_definition.spec_source()
            for job_definition in job_definitions
        }
        update.send(functools.partial(self._set_generators, generators))
```
-/

/-- A stored `JobSpecSource`, by concrete subclass and configuration
(`JobDefinition.spec_source` picks one of these three). -/
inductive JobSpecSource
  | yamlString (spec : JinjaTemplate)
  | yamlFile (path : String)
  | configMap (name : Option String) (ns : Option String)
deriving DecidableEq, Repr

/-- The `JobGenerator` class: wraps a spec source (its `generate` method is
embedded as `JobGenerator.generate` above, on the document the source
returns). -/
structure JobGenerator where
  spec_source : JobSpecSource
deriving DecidableEq, Repr

/-- A `JobDefinition` record of the definitions manifest (`config.py`). -/
structure JobDefinition where
  name : String
  spec : Option JinjaTemplate
  spec_path : Option String
  spec_config_map_name : Option String
  spec_config_map_namespace : Option String
deriving DecidableEq, Repr

/-- Python truthiness of the optional inline template: `None` and the empty
template string are falsy. -/
def truthyTemplate : Option JinjaTemplate → Bool
  | none => false
  | some [] => false
  | some (_ :: _) => true

/-- Python truthiness of an optional string: `None` and `""` are falsy. -/
def truthyString : Option String → Bool
  | none => false
  | some s => !s.isEmpty

/-- `JobDefinition.spec_source`: inline spec, else spec file, else config
map. -/
def JobDefinition.spec_source (d : JobDefinition) : JobSpecSource :=
  if truthyTemplate d.spec then .yamlString (d.spec.getD [])
  else if truthyString d.spec_path then .yamlFile (d.spec_path.getD "")
  else .configMap d.spec_config_map_name d.spec_config_map_namespace

/-- `NotFoundException` (the `remaps_exception` decorator turns the dict
`KeyError` into it) and `AttributeError` (attribute lookup failure). -/
inductive PyError
  | notFoundException
  | attributeError (attr : String)
deriving DecidableEq, Repr

/-- `StaticJobDefinitionsRegister.get_generator`: a dict lookup with
`KeyError` remapped to `NotFoundException`. -/
def StaticJobDefinitionsRegister.get_generator
    (job_generators : List (String × JobGenerator)) (name : String) :
    Except PyError JobGenerator :=
  match dictGet job_generators name with
  | some g => .ok g
  | none => .error .notFoundException

/-- What a register mapping value can be at runtime: the static register is
constructed with `JobGenerator` values, while the reloading register's
`_maybe_reload` stores `job_definition.spec_source()` — a `JobSpecSource`. -/
inductive RegisterValue
  | generator (g : JobGenerator)
  | specSource (s : JobSpecSource)
deriving DecidableEq, Repr

/-- Whether Python attribute lookup finds a `generate` method on the stored
object: `JobGenerator` defines `generate`; no `JobSpecSource` subclass does
(they define `get` and `template_vars`), so `.generate(...)` on one raises
`AttributeError`. -/
def RegisterValue.hasGenerateMethod : RegisterValue → Bool
  | .generator _ => true
  | .specSource _ => false

/-- The mapping `ReloadingJobDefinitionsRegister._maybe_reload` builds from
the parsed manifest: `{jd.name: jd.spec_source() for jd in job_definitions}`
(a dict comprehension: later entries overwrite earlier ones). -/
def reloadingGenerators (job_definitions : List JobDefinition) :
    List (String × RegisterValue) :=
  job_definitions.foldl
    (fun acc d => dictSet acc d.name (.specSource d.spec_source)) []

/-- `ReloadingJobDefinitionsRegister.get_generator` after a reload of the
given manifest. -/
def ReloadingJobDefinitionsRegister.get_generator
    (job_definitions : List JobDefinition) (name : String) :
    Except PyError RegisterValue :=
  match dictGet (reloadingGenerators job_definitions) name with
  | some v => .ok v
  | none => .error .notFoundException

/-- The manifest entry `{name: "a", spec: "x: {{v}}"}` of the spec's
scenario. -/
def wJobDefinitionA : JobDefinition :=
  { name := "a", spec := some wManifestTemplate, spec_path := none,
    spec_config_map_name := none, spec_config_map_namespace := none }

/-- The generator the static register is given for definition `"a"`. -/
def wGeneratorA : JobGenerator := { spec_source := .yamlString wManifestTemplate }

/-- C1: both registers fail with `NotFoundException` for an unknown name,
and the static register returns the `JobGenerator` it was given; but on the
scenario manifest `[{name: "a", spec: "x: {{v}}"}]` the reloading register's
`get_generator("a")` returns the stored `JobSpecSource`, which has no
`generate` method — `get_generator("a").generate({"v": "1"})` raises
`AttributeError`, contradicting the claim (and the code's own
`-> JobGenerator` annotations and docstrings). -/
theorem reloading_register_stores_spec_source_not_generator :
    StaticJobDefinitionsRegister.get_generator [("a", wGeneratorA)] "unknown"
        = .error .notFoundException
    ∧ StaticJobDefinitionsRegister.get_generator [("a", wGeneratorA)] "a"
        = .ok wGeneratorA
    ∧ ReloadingJobDefinitionsRegister.get_generator [wJobDefinitionA] "unknown"
        = .error .notFoundException
    ∧ ReloadingJobDefinitionsRegister.get_generator [wJobDefinitionA] "a"
        = .ok (.specSource (.yamlString wManifestTemplate))
    ∧ (RegisterValue.specSource (.yamlString wManifestTemplate)).hasGenerateMethod
        = false :=
  ⟨rfl, rfl, rfl, rfl, rfl⟩

end K8sJobs
